import Mathlib

/-!
Shallow embedding of the three queue implementations of the lockfree_queue
repository: `SPSCLockFreeQueue` (src/spsc_lockfree_queue.hpp), `LockedQueue`
(src/locked_queue.hpp) and `DoubleBufferSPSC` (src/double_buffer_spsc.hpp).
Concurrency is modelled as a sequential interleaving of the operations; each
C++ method becomes a Lean function on an explicit state record.  The `T& item`
out-parameter of `dequeue` is modelled by passing the caller's current value in
and returning the (possibly updated) value.
-/

/-- State of `SPSCLockFreeQueue<T, Size>`: the two indices `head_data_.head`
and `tail_data_.tail` and the backing array `buffer_data_.buffer`, modelled as
a function from indices to values (the C++ array is of fixed extent `Size`;
only indices below `Size` are ever accessed). -/
structure SPSCLockFreeQueue (α : Type) (Size : Nat) where
  head : Nat
  tail : Nat
  buffer : Nat → α

namespace SPSCLockFreeQueue

/-- `static constexpr size_t MASK = Size - 1`. -/
def MASK (Size : Nat) : Nat := Size - 1

/-- The constructor: both indices start at 0; the array contents are
indeterminate, modelled by an arbitrary initial function `b`. -/
def init (Size : Nat) {α : Type} (b : Nat → α) : SPSCLockFreeQueue α Size :=
  ⟨0, 0, b⟩

variable {α : Type} {Size : Nat}

/-- `bool enqueue(U&& item)`: compute `next_tail = (tail + 1) & MASK`; fail if
it equals `head`, otherwise store the item at index `tail` and publish
`next_tail`. -/
def enqueue (q : SPSCLockFreeQueue α Size) (item : α) :
    Bool × SPSCLockFreeQueue α Size :=
  let current_tail := q.tail
  let next_tail := (current_tail + 1) &&& MASK Size
  if next_tail = q.head then
    (false, q)
  else
    (true, { q with buffer := Function.update q.buffer current_tail item,
                    tail := next_tail })

/-- `bool dequeue(T& item)`: fail if `head == tail`, otherwise read the slot at
`head` into the out-parameter and advance `head` to `(head + 1) & MASK`. -/
def dequeue (q : SPSCLockFreeQueue α Size) (item : α) :
    Bool × α × SPSCLockFreeQueue α Size :=
  let current_head := q.head
  if current_head = q.tail then
    (false, item, q)
  else
    (true, q.buffer current_head,
      { q with head := (current_head + 1) &&& MASK Size })

/-- `bool empty() const`: `head == tail`. -/
def empty (q : SPSCLockFreeQueue α Size) : Bool :=
  q.head == q.tail

/-- `bool full() const`: `((tail + 1) & MASK) == head`. -/
def full (q : SPSCLockFreeQueue α Size) : Bool :=
  ((q.tail + 1) &&& MASK Size) == q.head

/-- `size_t size() const`: `(tail - head) & MASK`, with the C++ `size_t`
subtraction wrapping modulo `2^64`. -/
def size (q : SPSCLockFreeQueue α Size) : Nat :=
  ((2 ^ 64 + q.tail - q.head) % 2 ^ 64) &&& MASK Size

/-- `static constexpr size_t capacity()`: `Size - 1`. -/
def capacity (Size : Nat) : Nat := Size - 1

/-- Number of live elements in the ring: the circular distance from `head`
forward to `tail`, i.e. `(Size + tail - head) mod Size`. -/
def dist (Size h t : Nat) : Nat := (Size + t - h) % Size

/-- Abstract queue contents: the elements stored at positions
`head, head+1, ..., tail-1` (indices mod `Size`), oldest first. -/
def contents (q : SPSCLockFreeQueue α Size) : List α :=
  (List.range (dist Size q.head q.tail)).map
    (fun i => q.buffer ((q.head + i) % Size))

end SPSCLockFreeQueue

/-- A single-producer/single-consumer operation on a plain queue (used for
`SPSCLockFreeQueue` and `LockedQueue`): an enqueue of a value, or a dequeue. -/
inductive QOp (α : Type) where
  | enq (v : α)
  | deq

namespace SPSCLockFreeQueue

variable {α : Type} {Size : Nat}

/-- Run a sequence of operations sequentially, collecting the values of the
successful enqueues and the values returned by the successful dequeues (the
out-parameter of a dequeue is seeded with `default`). -/
def run [Inhabited α] :
    List (QOp α) → SPSCLockFreeQueue α Size →
      SPSCLockFreeQueue α Size × List α × List α
  | [], q => (q, [], [])
  | QOp.enq v :: ops, q =>
    let p := enqueue q v
    let r := run ops p.2
    (r.1, if p.1 then v :: r.2.1 else r.2.1, r.2.2)
  | QOp.deq :: ops, q =>
    let p := dequeue q default
    let r := run ops p.2.2
    (r.1, r.2.1, if p.1 then p.2.1 :: r.2.2 else r.2.2)

end SPSCLockFreeQueue

/-- For `a < 2 * S`, reduce `a % S` to a single conditional subtraction. -/
theorem mod_of_lt_two_mul {S : Nat} (hS : 0 < S) {a : Nat} (h : a < 2 * S) :
    a % S = if S ≤ a then a - S else a := by
  split
  · rw [Nat.mod_eq_sub_mod (by omega), Nat.mod_eq_of_lt (by omega)]
  · exact Nat.mod_eq_of_lt (by omega)

namespace SPSCLockFreeQueue

variable {α : Type} {Size : Nat}

/-- For a power-of-two `Size`, masking with `MASK Size = Size - 1` is reduction
modulo `Size` (the `static_assert` in the source requires this shape). -/
theorem mask_eq_mod {n : Nat} (hP : Size = 2 ^ n) (x : Nat) :
    x &&& MASK Size = x % Size := by
  subst hP
  exact Nat.and_pow_two_sub_one_eq_mod x n

theorem dist_lt {S : Nat} (hS : 0 < S) (h t : Nat) : dist S h t < S :=
  Nat.mod_lt _ hS

theorem dist_eq_zero_iff {S h t : Nat} (hS : 0 < S) (hh : h < S) (ht : t < S) :
    dist S h t = 0 ↔ h = t := by
  rw [dist, mod_of_lt_two_mul hS (by omega)]
  split <;> omega

theorem dist_succ_tail {S h t : Nat} (hS : 0 < S) (hh : h < S) (ht : t < S)
    (hne : (t + 1) % S ≠ h) :
    dist S h ((t + 1) % S) = dist S h t + 1 := by
  rw [mod_of_lt_two_mul hS (by omega)] at hne ⊢
  rw [dist, dist]
  by_cases hc : S ≤ t + 1
  · rw [if_pos hc] at hne ⊢
    rw [mod_of_lt_two_mul hS (by omega), mod_of_lt_two_mul hS (by omega)]
    split_ifs <;> omega
  · rw [if_neg hc] at hne ⊢
    rw [mod_of_lt_two_mul hS (by omega), mod_of_lt_two_mul hS (by omega)]
    split_ifs <;> omega

theorem dist_succ_head {S h t : Nat} (hS : 0 < S) (hh : h < S) (ht : t < S)
    (hne : h ≠ t) :
    dist S ((h + 1) % S) t + 1 = dist S h t := by
  rw [mod_of_lt_two_mul hS (by omega)]
  rw [dist, dist]
  by_cases hc : S ≤ h + 1
  · rw [if_pos hc]
    rw [mod_of_lt_two_mul hS (by omega), mod_of_lt_two_mul hS (by omega)]
    split_ifs <;> omega
  · rw [if_neg hc]
    rw [mod_of_lt_two_mul hS (by omega), mod_of_lt_two_mul hS (by omega)]
    split_ifs <;> omega

theorem head_add_dist {S h t : Nat} (hS : 0 < S) (hh : h < S) (ht : t < S) :
    (h + dist S h t) % S = t := by
  rw [dist, Nat.add_mod_mod]
  have e : h + (S + t - h) = S + t := by omega
  rw [e, mod_of_lt_two_mul hS (by omega)]
  split_ifs <;> omega

theorem mid_ne_tail {S h t i : Nat} (hS : 0 < S) (hh : h < S) (ht : t < S)
    (hi : i < dist S h t) : (h + i) % S ≠ t := by
  intro he
  have hiS : i < S := hi.trans (dist_lt hS h t)
  rw [dist, mod_of_lt_two_mul hS (by omega)] at hi
  rw [mod_of_lt_two_mul hS (by omega)] at he
  split_ifs at hi he <;> omega

theorem dist_full_iff {S h t : Nat} (hS : 0 < S) (hh : h < S) (ht : t < S) :
    dist S h t = S - 1 ↔ (t + 1) % S = h := by
  rw [dist, mod_of_lt_two_mul hS (by omega), mod_of_lt_two_mul hS (by omega)]
  split_ifs <;> omega

end SPSCLockFreeQueue

namespace SPSCLockFreeQueue

variable {α : Type} {Size : Nat}

theorem contents_init_spsc (Size : Nat) (b : Nat → α) :
    contents (init Size b) = [] := by
  simp [contents, init, dist]

theorem length_contents (q : SPSCLockFreeQueue α Size) :
    (contents q).length = dist Size q.head q.tail := by
  simp [contents]

theorem contents_eq_nil_iff {q : SPSCLockFreeQueue α Size} (hS : 0 < Size)
    (hh : q.head < Size) (ht : q.tail < Size) :
    contents q = [] ↔ q.head = q.tail := by
  rw [contents, List.map_eq_nil, List.range_eq_nil, dist_eq_zero_iff hS hh ht]

theorem contents_enqueue {S : Nat} (hS : 0 < S) {q : SPSCLockFreeQueue α S}
    (hh : q.head < S) (ht : q.tail < S) (hc : (q.tail + 1) % S ≠ q.head)
    (v : α) :
    contents (⟨q.head, (q.tail + 1) % S, Function.update q.buffer q.tail v⟩ :
        SPSCLockFreeQueue α S) = contents q ++ [v] := by
  unfold contents
  simp only
  rw [dist_succ_tail hS hh ht hc, List.range_succ, List.map_append]
  congr 1
  · apply List.map_congr_left
    intro i hi
    rw [List.mem_range] at hi
    exact Function.update_noteq (mid_ne_tail hS hh ht hi) v q.buffer
  · simp only [List.map_cons, List.map_nil]
    rw [head_add_dist hS hh ht, Function.update_same]

theorem contents_dequeue {S : Nat} (hS : 0 < S) {q : SPSCLockFreeQueue α S}
    (hh : q.head < S) (ht : q.tail < S) (hc : q.head ≠ q.tail) :
    contents q = q.buffer q.head ::
      contents (⟨(q.head + 1) % S, q.tail, q.buffer⟩ : SPSCLockFreeQueue α S) := by
  unfold contents
  simp only
  rw [← dist_succ_head hS hh ht hc, List.range_succ_eq_map, List.map_cons,
    List.map_map]
  congr 1
  · rw [Nat.add_zero, Nat.mod_eq_of_lt hh]
  · congr 1
    funext i
    simp only [Function.comp_apply]
    rw [Nat.mod_add_mod]
    congr 2
    omega

/-- Invariant preservation and abstract-state evolution for a whole operation
sequence: the indices stay in range and the elements enqueued so far equal the
elements dequeued so far followed by the residual contents. -/
theorem run_spec_spsc [Inhabited α] {n : Nat} (hP : Size = 2 ^ n)
    (ops : List (QOp α)) :
    ∀ q : SPSCLockFreeQueue α Size, q.head < Size → q.tail < Size →
      (run ops q).1.head < Size ∧ (run ops q).1.tail < Size ∧
      contents q ++ (run ops q).2.1 = (run ops q).2.2 ++ contents (run ops q).1 := by
  have hS : 0 < Size := hP ▸ Nat.two_pow_pos n
  induction ops with
  | nil =>
    intro q hh ht
    exact ⟨hh, ht, by simp [run]⟩
  | cons op ops ih =>
    intro q hh ht
    cases op with
    | enq v =>
      by_cases hc : (q.tail + 1) &&& MASK Size = q.head
      · have he : enqueue q v = (false, q) := by
          simp [enqueue, hc]
        simp only [run, he]
        obtain ⟨h1, h2, h3⟩ := ih q hh ht
        exact ⟨h1, h2, by simpa using h3⟩
      · have hcm : (q.tail + 1) % Size ≠ q.head := by
          rwa [mask_eq_mod hP] at hc
        have he : enqueue q v = (true,
            ⟨q.head, (q.tail + 1) % Size, Function.update q.buffer q.tail v⟩) := by
          simp only [enqueue, mask_eq_mod hP, if_neg hcm]
        have ht' : (q.tail + 1) % Size < Size := Nat.mod_lt _ hS
        obtain ⟨h1, h2, h3⟩ :=
          ih ⟨q.head, (q.tail + 1) % Size, Function.update q.buffer q.tail v⟩ hh ht'
        refine ⟨by simpa [run, he] using h1, by simpa [run, he] using h2, ?_⟩
        simp only [run, he, if_true]
        rw [show contents q ++ v ::
              (run ops (⟨q.head, (q.tail + 1) % Size,
                Function.update q.buffer q.tail v⟩ : SPSCLockFreeQueue α Size)).2.1
            = (contents q ++ [v]) ++
              (run ops (⟨q.head, (q.tail + 1) % Size,
                Function.update q.buffer q.tail v⟩ : SPSCLockFreeQueue α Size)).2.1
          from by simp]
        rw [← contents_enqueue hS hh ht hcm v]
        exact h3
    | deq =>
      by_cases hc : q.head = q.tail
      · have hd : dequeue q (default : α) = (false, default, q) := by
          simp [dequeue, hc]
        simp only [run, hd]
        obtain ⟨h1, h2, h3⟩ := ih q hh ht
        exact ⟨h1, h2, by simpa using h3⟩
      · have hd : dequeue q (default : α) = (true, q.buffer q.head,
            ⟨(q.head + 1) % Size, q.tail, q.buffer⟩) := by
          simp only [dequeue, if_neg hc, mask_eq_mod hP]
        have hh' : (q.head + 1) % Size < Size := Nat.mod_lt _ hS
        obtain ⟨h1, h2, h3⟩ :=
          ih ⟨(q.head + 1) % Size, q.tail, q.buffer⟩ hh' ht
        refine ⟨by simpa [run, hd] using h1, by simpa [run, hd] using h2, ?_⟩
        simp only [run, hd, if_true]
        rw [contents_dequeue hS hh ht hc]
        simpa using h3

end SPSCLockFreeQueue

/-- State of `LockedQueue<T>`: the `std::queue<T>` contents (front of the list
is the front of the queue) and the `max_size_` bound.  The mutex and condition
variable serialize access and carry no state visible in the sequential
model. -/
structure LockedQueue (α : Type) where
  queue : List α
  max_size : Nat

namespace LockedQueue

/-- The constructor `LockedQueue(size_t max_size = 1024)`. -/
def init (α : Type) (max_size : Nat) : LockedQueue α := ⟨[], max_size⟩

variable {α : Type}

/-- `bool enqueue(U&& item)`: reject if `queue_.size() >= max_size_`, else
push at the back. -/
def enqueue (q : LockedQueue α) (item : α) : Bool × LockedQueue α :=
  if q.queue.length ≥ q.max_size then
    (false, q)
  else
    (true, { q with queue := q.queue ++ [item] })

/-- `bool dequeue(T& item)` (non-blocking): reject if empty, else move the
front element into the out-parameter and pop it. -/
def dequeue (q : LockedQueue α) (item : α) : Bool × α × LockedQueue α :=
  match q.queue with
  | [] => (false, item, q)
  | x :: xs => (true, x, { q with queue := xs })

/-- `bool empty() const`. -/
def empty (q : LockedQueue α) : Bool := q.queue.isEmpty

/-- `bool full() const`: `queue_.size() >= max_size_`. -/
def full (q : LockedQueue α) : Bool := q.max_size ≤ q.queue.length

/-- `size_t size() const`. -/
def size (q : LockedQueue α) : Nat := q.queue.length

/-- `size_t capacity() const`: `max_size_`. -/
def capacity (q : LockedQueue α) : Nat := q.max_size

/-- Run a sequence of operations sequentially, collecting the successfully
enqueued values and the values returned by successful dequeues. -/
def run [Inhabited α] : List (QOp α) → LockedQueue α →
    LockedQueue α × List α × List α
  | [], q => (q, [], [])
  | QOp.enq v :: ops, q =>
    let p := enqueue q v
    let r := run ops p.2
    (r.1, if p.1 then v :: r.2.1 else r.2.1, r.2.2)
  | QOp.deq :: ops, q =>
    let p := dequeue q default
    let r := run ops p.2.2
    (r.1, r.2.1, if p.1 then p.2.1 :: r.2.2 else r.2.2)

/-- The elements enqueued so far equal the elements dequeued so far followed
by the residual queue contents, and `max_size` never changes. -/
theorem run_spec_locked [Inhabited α] (ops : List (QOp α)) :
    ∀ q : LockedQueue α,
      (run ops q).1.max_size = q.max_size ∧
      q.queue ++ (run ops q).2.1 = (run ops q).2.2 ++ (run ops q).1.queue := by
  induction ops with
  | nil => intro q; exact ⟨rfl, by simp [run]⟩
  | cons op ops ih =>
    intro q
    cases op with
    | enq v =>
      by_cases hc : q.queue.length ≥ q.max_size
      · have he : enqueue q v = (false, q) := by simp [enqueue, hc]
        obtain ⟨h1, h2⟩ := ih q
        exact ⟨by simpa [run, he] using h1, by simpa [run, he] using h2⟩
      · have he : enqueue q v = (true, { q with queue := q.queue ++ [v] }) := by
          simp [enqueue, hc]
        obtain ⟨h1, h2⟩ := ih { q with queue := q.queue ++ [v] }
        refine ⟨by simpa [run, he] using h1, ?_⟩
        simp only [run, he, if_true]
        simpa using h2
    | deq =>
      match hq : q.queue with
      | [] =>
        have hd : dequeue q (default : α) = (false, default, q) := by
          simp [dequeue, hq]
        obtain ⟨h1, h2⟩ := ih q
        exact ⟨by simpa [run, hd] using h1, by simpa [run, hd, hq] using h2⟩
      | x :: xs =>
        have hd : dequeue q (default : α) = (true, x, { q with queue := xs }) := by
          simp [dequeue, hq]
        obtain ⟨h1, h2⟩ := ih { q with queue := xs }
        refine ⟨by simpa [run, hd] using h1, ?_⟩
        simp only [run, hd, if_true, hq]
        simpa using h2

end LockedQueue

/-- State of `DoubleBufferSPSC<T>`: the two `std::vector<T>` buffers, the two
atomic buffer pointers (modelled as selectors: `true` designates `buffer1_`,
`false` designates `buffer2_`), the one-shot swap flag, the read cursor and the
bound `max_size_` (applied to the write buffer only). -/
structure DoubleBufferSPSC (α : Type) where
  buffer1 : List α
  buffer2 : List α
  write_buffer : Bool
  read_buffer : Bool
  buffer_swapped : Bool
  read_index : Nat
  max_size : Nat

namespace DoubleBufferSPSC

variable {α : Type}

/-- Dereference a buffer pointer. -/
def bufAt (q : DoubleBufferSPSC α) (p : Bool) : List α :=
  if p then q.buffer1 else q.buffer2

/-- Store through a buffer pointer. -/
def setBuf (q : DoubleBufferSPSC α) (p : Bool) (b : List α) :
    DoubleBufferSPSC α :=
  if p then { q with buffer1 := b } else { q with buffer2 := b }

/-- The constructor `DoubleBufferSPSC(size_t max_size = 1024)`: both buffers
empty, `write_buffer_ = &buffer1_`, `read_buffer_ = &buffer2_`, flag clear,
read cursor 0. -/
def init (α : Type) (max_size : Nat) : DoubleBufferSPSC α :=
  ⟨[], [], true, false, false, 0, max_size⟩

/-- `bool enqueue(U&& item)`: reject if the current write buffer has reached
`max_size_`, else `push_back` onto it. -/
def enqueue (q : DoubleBufferSPSC α) (item : α) : Bool × DoubleBufferSPSC α :=
  let current_write_buffer := bufAt q q.write_buffer
  if current_write_buffer.length ≥ q.max_size then
    (false, q)
  else
    (true, setBuf q q.write_buffer (current_write_buffer ++ [item]))

/-- `void swap_buffers()`: exchange the two buffer pointers, clear the buffer
the old read pointer designates (the new write buffer), reset the read cursor,
and raise the swapped flag. -/
def swap_buffers (q : DoubleBufferSPSC α) : DoubleBufferSPSC α :=
  let current_write := q.write_buffer
  let current_read := q.read_buffer
  let q1 := { q with write_buffer := current_read, read_buffer := current_write }
  let q2 := setBuf q1 current_read []
  { q2 with read_index := 0, buffer_swapped := true }

/-- `bool dequeue(T& item)`: reject if the read cursor has reached the read
buffer's size, else move out the element at the cursor and advance it. -/
def dequeue (q : DoubleBufferSPSC α) (item : α) :
    Bool × α × DoubleBufferSPSC α :=
  let current_read_buffer := bufAt q q.read_buffer
  let current_read_index := q.read_index
  if h : current_read_buffer.length ≤ current_read_index then
    (false, item, q)
  else
    (true, current_read_buffer.get ⟨current_read_index, Nat.lt_of_not_le h⟩,
      { q with read_index := current_read_index + 1 })

/-- `bool has_data() const`: `read_index < read_buffer->size()`. -/
def has_data (q : DoubleBufferSPSC α) : Bool :=
  q.read_index < (bufAt q q.read_buffer).length

/-- `bool write_buffer_full() const`. -/
def write_buffer_full (q : DoubleBufferSPSC α) : Bool :=
  q.max_size ≤ (bufAt q q.write_buffer).length

/-- `size_t write_buffer_size() const`. -/
def write_buffer_size (q : DoubleBufferSPSC α) : Nat :=
  (bufAt q q.write_buffer).length

/-- `size_t read_buffer_remaining() const`. -/
def read_buffer_remaining (q : DoubleBufferSPSC α) : Nat :=
  (bufAt q q.read_buffer).length - q.read_index

/-- `size_t capacity() const`. -/
def capacity (q : DoubleBufferSPSC α) : Nat := q.max_size

/-- `bool buffer_was_swapped()`: `buffer_swapped_.exchange(false)` — returns
the old flag and clears it. -/
def buffer_was_swapped (q : DoubleBufferSPSC α) : Bool × DoubleBufferSPSC α :=
  (q.buffer_swapped, { q with buffer_swapped := false })

/-- Abstract queue contents under the drain-before-swap discipline: the
unread tail of the read buffer followed by the accumulating write buffer. -/
def contents (q : DoubleBufferSPSC α) : List α :=
  (bufAt q q.read_buffer).drop q.read_index ++ bufAt q q.write_buffer

end DoubleBufferSPSC

/-- An operation on the double-buffer queue: enqueue, dequeue, or the
producer-side `swap_buffers` call. -/
inductive DBOp (α : Type) where
  | enq (v : α)
  | deq
  | swap

namespace DoubleBufferSPSC

variable {α : Type}

/-- Run a sequence of operations sequentially, collecting the successfully
enqueued values and the values returned by successful dequeues. -/
def run [Inhabited α] : List (DBOp α) → DoubleBufferSPSC α →
    DoubleBufferSPSC α × List α × List α
  | [], q => (q, [], [])
  | DBOp.enq v :: ops, q =>
    let p := enqueue q v
    let r := run ops p.2
    (r.1, if p.1 then v :: r.2.1 else r.2.1, r.2.2)
  | DBOp.deq :: ops, q =>
    let p := dequeue q default
    let r := run ops p.2.2
    (r.1, r.2.1, if p.1 then p.2.1 :: r.2.2 else r.2.2)
  | DBOp.swap :: ops, q =>
    let r := run ops (swap_buffers q)
    (r.1, r.2.1, r.2.2)

/-- The single-producer/single-consumer batching discipline: each
`swap_buffers` call happens only once the consumer has fully drained the
current read buffer. -/
def disciplined [Inhabited α] : List (DBOp α) → DoubleBufferSPSC α → Prop
  | [], _ => True
  | DBOp.enq v :: ops, q => disciplined ops (enqueue q v).2
  | DBOp.deq :: ops, q => disciplined ops (dequeue q default).2.2
  | DBOp.swap :: ops, q =>
    read_buffer_remaining q = 0 ∧ disciplined ops (swap_buffers q)

end DoubleBufferSPSC

namespace DoubleBufferSPSC

variable {α : Type}

theorem enqueue_spec {q : DoubleBufferSPSC α}
    (hne : q.write_buffer ≠ q.read_buffer) (v : α) :
    (enqueue q v).2.write_buffer = q.write_buffer ∧
    (enqueue q v).2.read_buffer = q.read_buffer ∧
    (if (enqueue q v).1 then contents (enqueue q v).2 = contents q ++ [v]
     else (enqueue q v).2 = q) := by
  by_cases hc : (bufAt q q.write_buffer).length ≥ q.max_size
  · simp [enqueue, hc]
  · have he : enqueue q v
        = (true, setBuf q q.write_buffer (bufAt q q.write_buffer ++ [v])) := by
      simp only [enqueue]
      rw [if_neg hc]
    rw [he]
    cases hwb : q.write_buffer <;> cases hrb : q.read_buffer <;>
      simp_all [contents, bufAt, setBuf]

theorem dequeue_spec (q : DoubleBufferSPSC α) (x : α) :
    (dequeue q x).2.2.write_buffer = q.write_buffer ∧
    (dequeue q x).2.2.read_buffer = q.read_buffer ∧
    (if (dequeue q x).1 then
      contents q = (dequeue q x).2.1 :: contents (dequeue q x).2.2
     else (dequeue q x).2.2 = q ∧ (dequeue q x).2.1 = x) := by
  by_cases hc : (bufAt q q.read_buffer).length ≤ q.read_index
  · simp [dequeue, hc]
  · simp only [dequeue, dif_neg hc]
    refine ⟨trivial, trivial, ?_⟩
    simp only [if_true]
    rw [contents, contents]
    have hb1 : bufAt { q with read_index := q.read_index + 1 } q.read_buffer
        = bufAt q q.read_buffer := by
      simp [bufAt]
    have hb2 : bufAt { q with read_index := q.read_index + 1 } q.write_buffer
        = bufAt q q.write_buffer := by
      simp [bufAt]
    simp only [hb1, hb2]
    rw [List.drop_eq_get_cons (Nat.lt_of_not_le hc)]
    rw [List.cons_append]

theorem swap_fields {q : DoubleBufferSPSC α}
    (hne : q.write_buffer ≠ q.read_buffer) :
    (swap_buffers q).write_buffer = q.read_buffer ∧
    (swap_buffers q).read_buffer = q.write_buffer ∧
    (swap_buffers q).write_buffer ≠ (swap_buffers q).read_buffer ∧
    (swap_buffers q).read_index = 0 ∧
    bufAt (swap_buffers q) (swap_buffers q).write_buffer = [] ∧
    bufAt (swap_buffers q) (swap_buffers q).read_buffer
      = bufAt q q.write_buffer ∧
    (swap_buffers q).buffer_swapped = true := by
  cases hwb : q.write_buffer <;> cases hrb : q.read_buffer <;>
    simp_all [swap_buffers, setBuf, bufAt]

theorem swap_contents {q : DoubleBufferSPSC α}
    (hne : q.write_buffer ≠ q.read_buffer)
    (hdr : read_buffer_remaining q = 0) :
    contents (swap_buffers q) = contents q := by
  have hd : (bufAt q q.read_buffer).drop q.read_index = [] := by
    apply List.drop_eq_nil_of_le
    rw [read_buffer_remaining] at hdr
    omega
  cases hwb : q.write_buffer <;> cases hrb : q.read_buffer <;>
    simp_all [swap_buffers, setBuf, bufAt, contents]

/-- Invariant preservation and abstract-state evolution for a whole operation
sequence obeying the drain-before-swap discipline: the two buffer pointers
stay distinct and the elements enqueued so far equal the elements dequeued so
far followed by the residual contents. -/
theorem run_spec_db [Inhabited α] (ops : List (DBOp α)) :
    ∀ q : DoubleBufferSPSC α, q.write_buffer ≠ q.read_buffer →
      disciplined ops q →
      (run ops q).1.write_buffer ≠ (run ops q).1.read_buffer ∧
      contents q ++ (run ops q).2.1 = (run ops q).2.2 ++ contents (run ops q).1 := by
  induction ops with
  | nil =>
    intro q hne _
    exact ⟨hne, by simp [run]⟩
  | cons op ops ih =>
    intro q hne hdisc
    cases op with
    | enq v =>
      obtain ⟨e1, e2, e3⟩ := enqueue_spec (q := q) hne v
      have hne' : (enqueue q v).2.write_buffer ≠ (enqueue q v).2.read_buffer := by
        rw [e1, e2]; exact hne
      have hdisc' : disciplined ops (enqueue q v).2 := hdisc
      obtain ⟨h1, h2⟩ := ih (enqueue q v).2 hne' hdisc'
      cases hok : (enqueue q v).1 with
      | false =>
        have e4 : (enqueue q v).2 = q := by simpa [hok] using e3
        rw [e4] at h1 h2
        exact ⟨by simpa [run, hok, e4] using h1, by simpa [run, hok, e4] using h2⟩
      | true =>
        have e4 : contents (enqueue q v).2 = contents q ++ [v] := by
          simpa [hok] using e3
        refine ⟨by simpa [run, hok] using h1, ?_⟩
        have h5 : contents q ++ v :: (run ops (enqueue q v).2).2.1
            = contents (enqueue q v).2 ++ (run ops (enqueue q v).2).2.1 := by
          rw [e4]; simp
        simpa [run, hok] using h5.trans h2
    | deq =>
      obtain ⟨e1, e2, e3⟩ := dequeue_spec q (default : α)
      have hne' : (dequeue q default).2.2.write_buffer
          ≠ (dequeue q default).2.2.read_buffer := by
        rw [e1, e2]; exact hne
      have hdisc' : disciplined ops (dequeue q default).2.2 := hdisc
      obtain ⟨h1, h2⟩ := ih (dequeue q default).2.2 hne' hdisc'
      cases hok : (dequeue q default).1 with
      | false =>
        have e4 : (dequeue q default).2.2 = q
            ∧ (dequeue q default).2.1 = default := by
          simpa [hok] using e3
        rw [e4.1] at h1 h2
        exact ⟨by simpa [run, hok, e4.1] using h1,
          by simpa [run, hok, e4.1] using h2⟩
      | true =>
        have e4 : contents q
            = (dequeue q default).2.1 :: contents (dequeue q default).2.2 := by
          simpa [hok] using e3
        refine ⟨by simpa [run, hok] using h1, ?_⟩
        have h5 : contents q ++ (run ops (dequeue q default).2.2).2.1
            = (dequeue q default).2.1 ::
              (contents (dequeue q default).2.2
                ++ (run ops (dequeue q default).2.2).2.1) := by
          rw [e4]; simp
        rw [h2] at h5
        simpa [run, hok] using h5
    | swap =>
      obtain ⟨hdr, hdisc'⟩ := hdisc
      obtain ⟨s1, s2, s3, _⟩ := swap_fields (q := q) hne
      have hc : contents (swap_buffers q) = contents q := swap_contents hne hdr
      obtain ⟨h1, h2⟩ := ih (swap_buffers q) s3 hdisc'
      rw [hc] at h2
      exact ⟨by simpa [run] using h1, by simpa [run] using h2⟩

theorem contents_init_db (max_size : Nat) : contents (init α max_size) = [] := by
  simp [contents, init, bufAt]

end DoubleBufferSPSC

namespace SPSCLockFreeQueue

variable {α : Type} {Size : Nat}

/-- The list of boolean results of enqueueing the given values in order. -/
def enqRes : List α → SPSCLockFreeQueue α Size → List Bool
  | [], _ => []
  | v :: vs, q =>
    let p := enqueue q v
    p.1 :: enqRes vs p.2

/-- From a state with `head = 0` and `tail = t`, enqueues succeed until the
ring holds `Size - 1` elements and fail from then on. -/
theorem enqRes_spec_spsc {n : Nat} (hP : Size = 2 ^ n) (vs : List α) :
    ∀ (t : Nat) (b : Nat → α), t < Size →
      enqRes vs (⟨0, t, b⟩ : SPSCLockFreeQueue α Size)
        = List.replicate (min vs.length (Size - 1 - t)) true
          ++ List.replicate (vs.length - (Size - 1 - t)) false := by
  have hS : 0 < Size := hP ▸ Nat.two_pow_pos n
  induction vs with
  | nil =>
    intro t b ht
    simp [enqRes]
  | cons v vs ih =>
    intro t b ht
    by_cases hc : t = Size - 1
    · have hcm : (t + 1) &&& MASK Size = 0 := by
        rw [mask_eq_mod hP]
        have e : t + 1 = Size := by omega
        rw [e, Nat.mod_self]
      have he : enqueue (⟨0, t, b⟩ : SPSCLockFreeQueue α Size) v
          = (false, ⟨0, t, b⟩) := by
        simp [enqueue, hcm]
      simp only [enqRes, he]
      rw [ih t b ht]
      have h0 : Size - 1 - t = 0 := by omega
      rw [h0]
      simp [List.replicate_succ]
    · have ht1 : t + 1 < Size := by omega
      have hcm : (t + 1) &&& MASK Size = t + 1 := by
        rw [mask_eq_mod hP]
        exact Nat.mod_eq_of_lt ht1
      have he : enqueue (⟨0, t, b⟩ : SPSCLockFreeQueue α Size) v
          = (true, ⟨0, t + 1, Function.update b t v⟩) := by
        simp only [enqueue, hcm]
        rw [if_neg (by omega : ¬ (t + 1 = 0))]
      simp only [enqRes, he]
      rw [ih (t + 1) (Function.update b t v) ht1]
      simp only [List.length_cons]
      rw [show min (vs.length + 1) (Size - 1 - t)
            = min vs.length (Size - 1 - (t + 1)) + 1 from by omega,
          show vs.length + 1 - (Size - 1 - t)
            = vs.length - (Size - 1 - (t + 1)) from by omega,
          List.replicate_succ, List.cons_append]

end SPSCLockFreeQueue

namespace LockedQueue

variable {α : Type}

/-- The list of boolean results of enqueueing the given values in order. -/
def enqRes : List α → LockedQueue α → List Bool
  | [], _ => []
  | v :: vs, q =>
    let p := enqueue q v
    p.1 :: enqRes vs p.2

/-- Enqueues succeed until the queue holds `max_size` elements and fail from
then on. -/
theorem enqRes_spec_locked (vs : List α) :
    ∀ q : LockedQueue α,
      enqRes vs q
        = List.replicate (min vs.length (q.max_size - q.queue.length)) true
          ++ List.replicate (vs.length - (q.max_size - q.queue.length)) false := by
  induction vs with
  | nil =>
    intro q
    simp [enqRes]
  | cons v vs ih =>
    intro q
    by_cases hc : q.queue.length ≥ q.max_size
    · have he : enqueue q v = (false, q) := by simp [enqueue, hc]
      simp only [enqRes, he]
      rw [ih q]
      have h0 : q.max_size - q.queue.length = 0 := by omega
      rw [h0]
      simp [List.replicate_succ]
    · have he : enqueue q v = (true, { q with queue := q.queue ++ [v] }) := by
        simp [enqueue, hc]
      simp only [enqRes, he]
      rw [ih { q with queue := q.queue ++ [v] }]
      simp only [List.length_append, List.length_singleton, List.length_cons,
        List.length_nil]
      rw [show min (vs.length + 1) (q.max_size - q.queue.length)
            = min vs.length (q.max_size - (q.queue.length + 1)) + 1 from by omega,
          show vs.length + 1 - (q.max_size - q.queue.length)
            = vs.length - (q.max_size - (q.queue.length + 1)) from by omega,
          List.replicate_succ, List.cons_append]

end LockedQueue

/-- Claim C1: for each of the three queues under single-producer/single-consumer
use (sequential interleaving; for `DoubleBufferSPSC` each `swap_buffers` call
happens only after the read buffer is drained), the values returned by the
successful dequeues so far are exactly the values of the successful enqueues so
far minus the residual contents — i.e. the successful-enqueue sequence equals
the successful-dequeue sequence followed by what is still queued, so there is
no reordering, loss, or duplication, and once the queue is drained the two
sequences are equal. -/
theorem claim_C1_fifo (α : Type) [Inhabited α] :
    (∀ (Size n : Nat), Size = 2 ^ n → ∀ (b : Nat → α) (ops : List (QOp α)),
      (SPSCLockFreeQueue.run ops (SPSCLockFreeQueue.init Size b)).2.1
        = (SPSCLockFreeQueue.run ops (SPSCLockFreeQueue.init Size b)).2.2
          ++ SPSCLockFreeQueue.contents
              (SPSCLockFreeQueue.run ops (SPSCLockFreeQueue.init Size b)).1) ∧
    (∀ (max_size : Nat) (ops : List (QOp α)),
      (LockedQueue.run ops (LockedQueue.init α max_size)).2.1
        = (LockedQueue.run ops (LockedQueue.init α max_size)).2.2
          ++ (LockedQueue.run ops (LockedQueue.init α max_size)).1.queue) ∧
    (∀ (max_size : Nat) (ops : List (DBOp α)),
      DoubleBufferSPSC.disciplined ops (DoubleBufferSPSC.init α max_size) →
      (DoubleBufferSPSC.run ops (DoubleBufferSPSC.init α max_size)).2.1
        = (DoubleBufferSPSC.run ops (DoubleBufferSPSC.init α max_size)).2.2
          ++ DoubleBufferSPSC.contents
              (DoubleBufferSPSC.run ops (DoubleBufferSPSC.init α max_size)).1) := by
  refine ⟨?_, ?_, ?_⟩
  · intro Size n hP b ops
    have hS : 0 < Size := hP ▸ Nat.two_pow_pos n
    obtain ⟨_, _, h3⟩ :=
      SPSCLockFreeQueue.run_spec_spsc hP ops (SPSCLockFreeQueue.init Size b) hS hS
    rw [SPSCLockFreeQueue.contents_init_spsc] at h3
    simpa using h3
  · intro max_size ops
    obtain ⟨_, h2⟩ := LockedQueue.run_spec_locked ops (LockedQueue.init α max_size)
    simpa [LockedQueue.init] using h2
  · intro max_size ops hdisc
    obtain ⟨_, h2⟩ := DoubleBufferSPSC.run_spec_db ops
      (DoubleBufferSPSC.init α max_size) (by simp [DoubleBufferSPSC.init]) hdisc
    rw [DoubleBufferSPSC.contents_init_db] at h2
    simpa using h2

/-- Witness for C1 at concrete inputs (ring of size `2 = 2^1` with one
enqueue and one dequeue; double buffer with one enqueue, a drained swap and a
dequeue). -/
theorem claim_C1_fifo_witness :
    ((SPSCLockFreeQueue.run [QOp.enq 5, QOp.deq]
        (SPSCLockFreeQueue.init 2 (fun _ => (0 : Nat)))).2.1
      = (SPSCLockFreeQueue.run [QOp.enq 5, QOp.deq]
          (SPSCLockFreeQueue.init 2 (fun _ => (0 : Nat)))).2.2
        ++ SPSCLockFreeQueue.contents
            (SPSCLockFreeQueue.run [QOp.enq 5, QOp.deq]
              (SPSCLockFreeQueue.init 2 (fun _ => (0 : Nat)))).1) ∧
    ((DoubleBufferSPSC.run [DBOp.enq 5, DBOp.swap, DBOp.deq]
        (DoubleBufferSPSC.init Nat 4)).2.1
      = (DoubleBufferSPSC.run [DBOp.enq 5, DBOp.swap, DBOp.deq]
          (DoubleBufferSPSC.init Nat 4)).2.2
        ++ DoubleBufferSPSC.contents
            (DoubleBufferSPSC.run [DBOp.enq 5, DBOp.swap, DBOp.deq]
              (DoubleBufferSPSC.init Nat 4)).1) := by
  constructor
  · exact (claim_C1_fifo Nat).1 2 1 (by norm_num) (fun _ => 0) [QOp.enq 5, QOp.deq]
  · refine (claim_C1_fifo Nat).2.2 4 [DBOp.enq 5, DBOp.swap, DBOp.deq] ?_
    refine ⟨by decide, trivial⟩

/-- Claim C2: from a fresh queue, for `SPSCLockFreeQueue` of power-of-two size
`S` a run of `S` enqueues yields `S - 1` successes followed by one failure; for
`LockedQueue` with `max_size = M` a run of `M + 1` enqueues yields `M`
successes followed by one failure. -/
theorem claim_C2_capacity (α : Type) :
    (∀ (Size n : Nat), Size = 2 ^ n → ∀ (b : Nat → α) (vs : List α),
      vs.length = Size →
      SPSCLockFreeQueue.enqRes vs (SPSCLockFreeQueue.init Size b)
        = List.replicate (Size - 1) true ++ [false]) ∧
    (∀ (M : Nat) (vs : List α), vs.length = M + 1 →
      LockedQueue.enqRes vs (LockedQueue.init α M)
        = List.replicate M true ++ [false]) := by
  constructor
  · intro Size n hP b vs hlen
    have hS : 0 < Size := hP ▸ Nat.two_pow_pos n
    rw [SPSCLockFreeQueue.init, SPSCLockFreeQueue.enqRes_spec_spsc hP vs 0 b hS, hlen]
    rw [show min Size (Size - 1 - 0) = Size - 1 from by omega,
      show Size - (Size - 1 - 0) = 1 from by omega]
    rfl
  · intro M vs hlen
    rw [LockedQueue.enqRes_spec_locked vs (LockedQueue.init α M), hlen]
    simp only [LockedQueue.init, List.length_nil, Nat.sub_zero]
    rw [show min (M + 1) M = M from by omega, Nat.add_sub_cancel_left]
    rfl

/-- Witness for C2: size-2 ring accepts 1 of 2 values; `max_size = 1` locked
queue accepts 1 of 2 values. -/
theorem claim_C2_capacity_witness :
    (SPSCLockFreeQueue.enqRes [3, 4]
        (SPSCLockFreeQueue.init 2 (fun _ => (0 : Nat)))
      = List.replicate 1 true ++ [false]) ∧
    (LockedQueue.enqRes [7, 8] (LockedQueue.init Nat 1)
      = List.replicate 1 true ++ [false]) :=
  ⟨(claim_C2_capacity Nat).1 2 1 (by norm_num) (fun _ => 0) [3, 4] (by decide),
   (claim_C2_capacity Nat).2 1 [7, 8] (by decide)⟩

/-- Claim C3: on a fresh `DoubleBufferSPSC` (capacity at least 3), enqueuing
three elements and calling `swap_buffers()` once makes three successive
dequeues succeed with the three elements in enqueue order, and a fourth
dequeue fail leaving its out-argument unchanged. -/
theorem claim_C3_batch_integrity (α : Type) (max_size : Nat)
    (hm : 3 ≤ max_size) (a b c x : α) (q0 : DoubleBufferSPSC α)
    (hq0 : q0 = DoubleBufferSPSC.init α max_size) :
    let q1 := (DoubleBufferSPSC.enqueue q0 a).2
    let q2 := (DoubleBufferSPSC.enqueue q1 b).2
    let q3 := (DoubleBufferSPSC.enqueue q2 c).2
    let s := DoubleBufferSPSC.swap_buffers q3
    let s1 := (DoubleBufferSPSC.dequeue s x).2.2
    let s2 := (DoubleBufferSPSC.dequeue s1 x).2.2
    let s3 := (DoubleBufferSPSC.dequeue s2 x).2.2
    (DoubleBufferSPSC.enqueue q0 a).1 = true ∧
    (DoubleBufferSPSC.enqueue q1 b).1 = true ∧
    (DoubleBufferSPSC.enqueue q2 c).1 = true ∧
    (DoubleBufferSPSC.dequeue s x).1 = true ∧
    (DoubleBufferSPSC.dequeue s x).2.1 = a ∧
    (DoubleBufferSPSC.dequeue s1 x).1 = true ∧
    (DoubleBufferSPSC.dequeue s1 x).2.1 = b ∧
    (DoubleBufferSPSC.dequeue s2 x).1 = true ∧
    (DoubleBufferSPSC.dequeue s2 x).2.1 = c ∧
    (DoubleBufferSPSC.dequeue s3 x).1 = false ∧
    (DoubleBufferSPSC.dequeue s3 x).2.1 = x := by
  subst hq0
  simp [DoubleBufferSPSC.enqueue, DoubleBufferSPSC.dequeue,
    DoubleBufferSPSC.swap_buffers, DoubleBufferSPSC.init,
    DoubleBufferSPSC.bufAt, DoubleBufferSPSC.setBuf,
    show ¬ (max_size ≤ 0) from by omega,
    show ¬ (max_size ≤ 1) from by omega,
    show ¬ (max_size ≤ 2) from by omega]

/-- Witness for C3 with capacity 4 and elements 1, 2, 3. -/
theorem claim_C3_batch_integrity_witness :
    let q1 := (DoubleBufferSPSC.enqueue (DoubleBufferSPSC.init Nat 4) 1).2
    let q2 := (DoubleBufferSPSC.enqueue q1 2).2
    let q3 := (DoubleBufferSPSC.enqueue q2 3).2
    let s := DoubleBufferSPSC.swap_buffers q3
    let s1 := (DoubleBufferSPSC.dequeue s 9).2.2
    let s2 := (DoubleBufferSPSC.dequeue s1 9).2.2
    let s3 := (DoubleBufferSPSC.dequeue s2 9).2.2
    (DoubleBufferSPSC.enqueue (DoubleBufferSPSC.init Nat 4) 1).1 = true ∧
    (DoubleBufferSPSC.enqueue q1 2).1 = true ∧
    (DoubleBufferSPSC.enqueue q2 3).1 = true ∧
    (DoubleBufferSPSC.dequeue s 9).1 = true ∧
    (DoubleBufferSPSC.dequeue s 9).2.1 = 1 ∧
    (DoubleBufferSPSC.dequeue s1 9).1 = true ∧
    (DoubleBufferSPSC.dequeue s1 9).2.1 = 2 ∧
    (DoubleBufferSPSC.dequeue s2 9).1 = true ∧
    (DoubleBufferSPSC.dequeue s2 9).2.1 = 3 ∧
    (DoubleBufferSPSC.dequeue s3 9).1 = false ∧
    (DoubleBufferSPSC.dequeue s3 9).2.1 = 9 :=
  claim_C3_batch_integrity Nat 4 (by norm_num) 1 2 3 9
    (DoubleBufferSPSC.init Nat 4) rfl

/-- Claim C4: on a fresh `DoubleBufferSPSC` (capacity at least 2), enqueuing
two elements, swapping, enqueuing two more and swapping again without any
dequeue discards the first pair entirely: the resulting state holds only the
second pair (as its read batch, with both the other buffer and the write role
empty), so subsequent dequeues return exactly the second pair and then
fail. -/
theorem claim_C4_swap_discards (α : Type) (max_size : Nat)
    (hm : 2 ≤ max_size) (a b c d x : α) (q0 : DoubleBufferSPSC α)
    (hq0 : q0 = DoubleBufferSPSC.init α max_size) :
    let q1 := (DoubleBufferSPSC.enqueue q0 a).2
    let q2 := (DoubleBufferSPSC.enqueue q1 b).2
    let s1 := DoubleBufferSPSC.swap_buffers q2
    let q3 := (DoubleBufferSPSC.enqueue s1 c).2
    let q4 := (DoubleBufferSPSC.enqueue q3 d).2
    let s2 := DoubleBufferSPSC.swap_buffers q4
    let t1 := (DoubleBufferSPSC.dequeue s2 x).2.2
    let t2 := (DoubleBufferSPSC.dequeue t1 x).2.2
    (DoubleBufferSPSC.enqueue q0 a).1 = true ∧
    (DoubleBufferSPSC.enqueue q1 b).1 = true ∧
    (DoubleBufferSPSC.enqueue s1 c).1 = true ∧
    (DoubleBufferSPSC.enqueue q3 d).1 = true ∧
    DoubleBufferSPSC.swap_buffers q4
      = ⟨[], [c, d], true, false, true, 0, max_size⟩ ∧
    (DoubleBufferSPSC.dequeue s2 x).1 = true ∧
    (DoubleBufferSPSC.dequeue s2 x).2.1 = c ∧
    (DoubleBufferSPSC.dequeue t1 x).1 = true ∧
    (DoubleBufferSPSC.dequeue t1 x).2.1 = d ∧
    (DoubleBufferSPSC.dequeue t2 x).1 = false ∧
    (DoubleBufferSPSC.dequeue t2 x).2.1 = x := by
  subst hq0
  simp [DoubleBufferSPSC.enqueue, DoubleBufferSPSC.dequeue,
    DoubleBufferSPSC.swap_buffers, DoubleBufferSPSC.init,
    DoubleBufferSPSC.bufAt, DoubleBufferSPSC.setBuf,
    show ¬ (max_size ≤ 0) from by omega,
    show ¬ (max_size ≤ 1) from by omega]

/-- Witness for C4 with capacity 4 and elements 1, 2 then 3, 4. -/
theorem claim_C4_swap_discards_witness :
    let q1 := (DoubleBufferSPSC.enqueue (DoubleBufferSPSC.init Nat 4) 1).2
    let q2 := (DoubleBufferSPSC.enqueue q1 2).2
    let s1 := DoubleBufferSPSC.swap_buffers q2
    let q3 := (DoubleBufferSPSC.enqueue s1 3).2
    let q4 := (DoubleBufferSPSC.enqueue q3 4).2
    let s2 := DoubleBufferSPSC.swap_buffers q4
    let t1 := (DoubleBufferSPSC.dequeue s2 9).2.2
    let t2 := (DoubleBufferSPSC.dequeue t1 9).2.2
    (DoubleBufferSPSC.enqueue (DoubleBufferSPSC.init Nat 4) 1).1 = true ∧
    (DoubleBufferSPSC.enqueue q1 2).1 = true ∧
    (DoubleBufferSPSC.enqueue s1 3).1 = true ∧
    (DoubleBufferSPSC.enqueue q3 4).1 = true ∧
    DoubleBufferSPSC.swap_buffers q4 = ⟨[], [3, 4], true, false, true, 0, 4⟩ ∧
    (DoubleBufferSPSC.dequeue s2 9).1 = true ∧
    (DoubleBufferSPSC.dequeue s2 9).2.1 = 3 ∧
    (DoubleBufferSPSC.dequeue t1 9).1 = true ∧
    (DoubleBufferSPSC.dequeue t1 9).2.1 = 4 ∧
    (DoubleBufferSPSC.dequeue t2 9).1 = false ∧
    (DoubleBufferSPSC.dequeue t2 9).2.1 = 9 :=
  claim_C4_swap_discards Nat 4 (by norm_num) 1 2 3 4 9
    (DoubleBufferSPSC.init Nat 4) rfl

/-- Claim C5: for all three queues, dequeuing from a fresh queue or from one
whose successful enqueues have all been dequeued fails and leaves the
out-argument (and the state) unchanged. -/
theorem claim_C5_empty_dequeue (α : Type) [Inhabited α] :
    (∀ (Size n : Nat), Size = 2 ^ n →
      ∀ (b : Nat → α) (ops : List (QOp α)) (x : α),
      (SPSCLockFreeQueue.run ops (SPSCLockFreeQueue.init Size b)).2.1
        = (SPSCLockFreeQueue.run ops (SPSCLockFreeQueue.init Size b)).2.2 →
      SPSCLockFreeQueue.dequeue
          (SPSCLockFreeQueue.run ops (SPSCLockFreeQueue.init Size b)).1 x
        = (false, x,
            (SPSCLockFreeQueue.run ops (SPSCLockFreeQueue.init Size b)).1)) ∧
    (∀ (M : Nat) (ops : List (QOp α)) (x : α),
      (LockedQueue.run ops (LockedQueue.init α M)).2.1
        = (LockedQueue.run ops (LockedQueue.init α M)).2.2 →
      LockedQueue.dequeue (LockedQueue.run ops (LockedQueue.init α M)).1 x
        = (false, x, (LockedQueue.run ops (LockedQueue.init α M)).1)) ∧
    (∀ (M : Nat) (ops : List (DBOp α)) (x : α),
      DoubleBufferSPSC.disciplined ops (DoubleBufferSPSC.init α M) →
      (DoubleBufferSPSC.run ops (DoubleBufferSPSC.init α M)).2.1
        = (DoubleBufferSPSC.run ops (DoubleBufferSPSC.init α M)).2.2 →
      DoubleBufferSPSC.dequeue
          (DoubleBufferSPSC.run ops (DoubleBufferSPSC.init α M)).1 x
        = (false, x, (DoubleBufferSPSC.run ops (DoubleBufferSPSC.init α M)).1)) := by
  refine ⟨?_, ?_, ?_⟩
  · intro Size n hP b ops x hds
    have hS : 0 < Size := hP ▸ Nat.two_pow_pos n
    obtain ⟨h1, h2, h3⟩ :=
      SPSCLockFreeQueue.run_spec_spsc hP ops (SPSCLockFreeQueue.init Size b) hS hS
    rw [SPSCLockFreeQueue.contents_init_spsc, List.nil_append, hds] at h3
    have hnil : SPSCLockFreeQueue.contents
        (SPSCLockFreeQueue.run ops (SPSCLockFreeQueue.init Size b)).1 = [] := by
      have hl := congrArg List.length h3
      rw [List.length_append] at hl
      exact List.eq_nil_of_length_eq_zero (by omega)
    have hht := (SPSCLockFreeQueue.contents_eq_nil_iff hS h1 h2).mp hnil
    simp [SPSCLockFreeQueue.dequeue, hht]
  · intro M ops x hds
    obtain ⟨_, h2⟩ := LockedQueue.run_spec_locked ops (LockedQueue.init α M)
    rw [show (LockedQueue.init α M).queue = [] from rfl, List.nil_append,
      hds] at h2
    have hnil : (LockedQueue.run ops (LockedQueue.init α M)).1.queue = [] := by
      have hl := congrArg List.length h2
      rw [List.length_append] at hl
      exact List.eq_nil_of_length_eq_zero (by omega)
    simp [LockedQueue.dequeue, hnil]
  · intro M ops x hdisc hds
    obtain ⟨_, h2⟩ := DoubleBufferSPSC.run_spec_db ops (DoubleBufferSPSC.init α M)
      (by simp [DoubleBufferSPSC.init]) hdisc
    rw [DoubleBufferSPSC.contents_init_db, List.nil_append, hds] at h2
    have hnil : DoubleBufferSPSC.contents
        (DoubleBufferSPSC.run ops (DoubleBufferSPSC.init α M)).1 = [] := by
      have hl := congrArg List.length h2
      rw [List.length_append] at hl
      exact List.eq_nil_of_length_eq_zero (by omega)
    rw [DoubleBufferSPSC.contents] at hnil
    have hle := (List.append_eq_nil.mp hnil).1
    rw [List.drop_eq_nil_iff_le] at hle
    simp [DoubleBufferSPSC.dequeue, hle]
  
/-- Witness for C5: the empty operation sequence on each queue. -/
theorem claim_C5_empty_dequeue_witness :
    (SPSCLockFreeQueue.dequeue
        (SPSCLockFreeQueue.run ([] : List (QOp Nat))
          (SPSCLockFreeQueue.init 2 (fun _ => 0))).1 7
      = (false, 7,
          (SPSCLockFreeQueue.run ([] : List (QOp Nat))
            (SPSCLockFreeQueue.init 2 (fun _ => 0))).1)) ∧
    (LockedQueue.dequeue
        (LockedQueue.run ([] : List (QOp Nat)) (LockedQueue.init Nat 4)).1 7
      = (false, 7,
          (LockedQueue.run ([] : List (QOp Nat)) (LockedQueue.init Nat 4)).1)) ∧
    (DoubleBufferSPSC.dequeue
        (DoubleBufferSPSC.run ([] : List (DBOp Nat))
          (DoubleBufferSPSC.init Nat 4)).1 7
      = (false, 7,
          (DoubleBufferSPSC.run ([] : List (DBOp Nat))
            (DoubleBufferSPSC.init Nat 4)).1)) :=
  ⟨(claim_C5_empty_dequeue Nat).1 2 1 (by norm_num) (fun _ => 0) [] 7 rfl,
   (claim_C5_empty_dequeue Nat).2.1 4 [] 7 rfl,
   (claim_C5_empty_dequeue Nat).2.2 4 [] 7 trivial rfl⟩

/-- Claim C6: the concrete `LockedQueue` scenario with `max_size = 2`:
enqueue(A) → true, enqueue(B) → true, enqueue(C) → false, dequeue → A,
enqueue(C) → true, dequeue → B, dequeue → C, dequeue → false. -/
theorem claim_C6_locked_scenario (α : Type) (A B C x : α)
    (q0 : LockedQueue α) (hq0 : q0 = LockedQueue.init α 2) :
    let q1 := (LockedQueue.enqueue q0 A).2
    let q2 := (LockedQueue.enqueue q1 B).2
    let q3 := (LockedQueue.enqueue q2 C).2
    let q4 := (LockedQueue.dequeue q3 x).2.2
    let q5 := (LockedQueue.enqueue q4 C).2
    let q6 := (LockedQueue.dequeue q5 x).2.2
    let q7 := (LockedQueue.dequeue q6 x).2.2
    (LockedQueue.enqueue q0 A).1 = true ∧
    (LockedQueue.enqueue q1 B).1 = true ∧
    (LockedQueue.enqueue q2 C).1 = false ∧
    (LockedQueue.dequeue q3 x).1 = true ∧
    (LockedQueue.dequeue q3 x).2.1 = A ∧
    (LockedQueue.enqueue q4 C).1 = true ∧
    (LockedQueue.dequeue q5 x).1 = true ∧
    (LockedQueue.dequeue q5 x).2.1 = B ∧
    (LockedQueue.dequeue q6 x).1 = true ∧
    (LockedQueue.dequeue q6 x).2.1 = C ∧
    (LockedQueue.dequeue q7 x).1 = false ∧
    (LockedQueue.dequeue q7 x).2.1 = x := by
  subst hq0
  simp [LockedQueue.enqueue, LockedQueue.dequeue, LockedQueue.init]

/-- Witness for C6 with elements 10, 11, 12 and out-argument seed 9. -/
theorem claim_C6_locked_scenario_witness :
    let q1 := (LockedQueue.enqueue (LockedQueue.init Nat 2) 10).2
    let q2 := (LockedQueue.enqueue q1 11).2
    let q3 := (LockedQueue.enqueue q2 12).2
    let q4 := (LockedQueue.dequeue q3 9).2.2
    let q5 := (LockedQueue.enqueue q4 12).2
    let q6 := (LockedQueue.dequeue q5 9).2.2
    let q7 := (LockedQueue.dequeue q6 9).2.2
    (LockedQueue.enqueue (LockedQueue.init Nat 2) 10).1 = true ∧
    (LockedQueue.enqueue q1 11).1 = true ∧
    (LockedQueue.enqueue q2 12).1 = false ∧
    (LockedQueue.dequeue q3 9).1 = true ∧
    (LockedQueue.dequeue q3 9).2.1 = 10 ∧
    (LockedQueue.enqueue q4 12).1 = true ∧
    (LockedQueue.dequeue q5 9).1 = true ∧
    (LockedQueue.dequeue q5 9).2.1 = 11 ∧
    (LockedQueue.dequeue q6 9).1 = true ∧
    (LockedQueue.dequeue q6 9).2.1 = 12 ∧
    (LockedQueue.dequeue q7 9).1 = false ∧
    (LockedQueue.dequeue q7 9).2.1 = 9 :=
  claim_C6_locked_scenario Nat 10 11 12 9 (LockedQueue.init Nat 2) rfl

/-- Claim C7: on any `DoubleBufferSPSC` state whose two buffer pointers are
distinct, `swap_buffers()` exchanges the write and read roles, resets the read
cursor to zero, clears the buffer newly designated as write, keeps the
just-written contents in the buffer entering the read role, and leaves the two
pointers distinct. -/
theorem claim_C7_swap_roles (α : Type) (q : DoubleBufferSPSC α)
    (hne : q.write_buffer ≠ q.read_buffer) :
    (DoubleBufferSPSC.swap_buffers q).write_buffer = q.read_buffer ∧
    (DoubleBufferSPSC.swap_buffers q).read_buffer = q.write_buffer ∧
    (DoubleBufferSPSC.swap_buffers q).read_index = 0 ∧
    DoubleBufferSPSC.bufAt (DoubleBufferSPSC.swap_buffers q)
      (DoubleBufferSPSC.swap_buffers q).write_buffer = [] ∧
    DoubleBufferSPSC.bufAt (DoubleBufferSPSC.swap_buffers q)
      (DoubleBufferSPSC.swap_buffers q).read_buffer
      = DoubleBufferSPSC.bufAt q q.write_buffer ∧
    (DoubleBufferSPSC.swap_buffers q).write_buffer
      ≠ (DoubleBufferSPSC.swap_buffers q).read_buffer := by
  obtain ⟨s1, s2, s3, s4, s5, s6, _⟩ := DoubleBufferSPSC.swap_fields hne
  exact ⟨s1, s2, s4, s5, s6, s3⟩

/-- Witness for C7 at a concrete state. -/
theorem claim_C7_swap_roles_witness :
    (DoubleBufferSPSC.swap_buffers
        (⟨[1], [2], true, false, false, 0, 4⟩ : DoubleBufferSPSC Nat)).write_buffer
      = false ∧
    (DoubleBufferSPSC.swap_buffers
        (⟨[1], [2], true, false, false, 0, 4⟩ : DoubleBufferSPSC Nat)).read_buffer
      = true ∧
    (DoubleBufferSPSC.swap_buffers
        (⟨[1], [2], true, false, false, 0, 4⟩ : DoubleBufferSPSC Nat)).read_index
      = 0 ∧
    DoubleBufferSPSC.bufAt
        (DoubleBufferSPSC.swap_buffers
          (⟨[1], [2], true, false, false, 0, 4⟩ : DoubleBufferSPSC Nat))
        (DoubleBufferSPSC.swap_buffers
          (⟨[1], [2], true, false, false, 0, 4⟩ : DoubleBufferSPSC Nat)).write_buffer
      = [] ∧
    DoubleBufferSPSC.bufAt
        (DoubleBufferSPSC.swap_buffers
          (⟨[1], [2], true, false, false, 0, 4⟩ : DoubleBufferSPSC Nat))
        (DoubleBufferSPSC.swap_buffers
          (⟨[1], [2], true, false, false, 0, 4⟩ : DoubleBufferSPSC Nat)).read_buffer
      = DoubleBufferSPSC.bufAt (⟨[1], [2], true, false, false, 0, 4⟩ :
          DoubleBufferSPSC Nat) true ∧
    (DoubleBufferSPSC.swap_buffers
        (⟨[1], [2], true, false, false, 0, 4⟩ : DoubleBufferSPSC Nat)).write_buffer
      ≠ (DoubleBufferSPSC.swap_buffers
          (⟨[1], [2], true, false, false, 0, 4⟩ : DoubleBufferSPSC Nat)).read_buffer :=
  claim_C7_swap_roles Nat ⟨[1], [2], true, false, false, 0, 4⟩ (by decide)

/-- Claim C8: every `SPSCLockFreeQueue` state reachable from the initial state
by a sequence of operations has `head, tail < Size`; its `empty()` observer
answers true exactly when the abstract contents are empty; its `full()`
observer answers true exactly when the contents hold `capacity()` elements;
and `capacity()` is `Size - 1`. -/
theorem claim_C8_ring_invariants (α : Type) [Inhabited α] (Size n : Nat)
    (hP : Size = 2 ^ n) (b : Nat → α) (ops : List (QOp α)) :
    (SPSCLockFreeQueue.run ops (SPSCLockFreeQueue.init Size b)).1.head < Size ∧
    (SPSCLockFreeQueue.run ops (SPSCLockFreeQueue.init Size b)).1.tail < Size ∧
    (SPSCLockFreeQueue.empty
        (SPSCLockFreeQueue.run ops (SPSCLockFreeQueue.init Size b)).1 = true
      ↔ SPSCLockFreeQueue.contents
          (SPSCLockFreeQueue.run ops (SPSCLockFreeQueue.init Size b)).1 = []) ∧
    (SPSCLockFreeQueue.full
        (SPSCLockFreeQueue.run ops (SPSCLockFreeQueue.init Size b)).1 = true
      ↔ (SPSCLockFreeQueue.contents
          (SPSCLockFreeQueue.run ops (SPSCLockFreeQueue.init Size b)).1).length
        = SPSCLockFreeQueue.capacity Size) ∧
    SPSCLockFreeQueue.capacity Size = Size - 1 := by
  have hS : 0 < Size := hP ▸ Nat.two_pow_pos n
  obtain ⟨h1, h2, _⟩ :=
    SPSCLockFreeQueue.run_spec_spsc hP ops (SPSCLockFreeQueue.init Size b) hS hS
  refine ⟨h1, h2, ?_, ?_, rfl⟩
  · rw [SPSCLockFreeQueue.empty, beq_iff_eq]
    exact (SPSCLockFreeQueue.contents_eq_nil_iff hS h1 h2).symm
  · rw [SPSCLockFreeQueue.full, beq_iff_eq, SPSCLockFreeQueue.mask_eq_mod hP,
      SPSCLockFreeQueue.length_contents, SPSCLockFreeQueue.capacity]
    exact (SPSCLockFreeQueue.dist_full_iff hS h1 h2).symm

/-- Witness for C8: size-2 ring after a single successful enqueue. -/
theorem claim_C8_ring_invariants_witness :
    (SPSCLockFreeQueue.run [QOp.enq 5]
        (SPSCLockFreeQueue.init 2 (fun _ => (0 : Nat)))).1.head < 2 ∧
    (SPSCLockFreeQueue.run [QOp.enq 5]
        (SPSCLockFreeQueue.init 2 (fun _ => (0 : Nat)))).1.tail < 2 ∧
    (SPSCLockFreeQueue.empty
        (SPSCLockFreeQueue.run [QOp.enq 5]
          (SPSCLockFreeQueue.init 2 (fun _ => (0 : Nat)))).1 = true
      ↔ SPSCLockFreeQueue.contents
          (SPSCLockFreeQueue.run [QOp.enq 5]
            (SPSCLockFreeQueue.init 2 (fun _ => (0 : Nat)))).1 = []) ∧
    (SPSCLockFreeQueue.full
        (SPSCLockFreeQueue.run [QOp.enq 5]
          (SPSCLockFreeQueue.init 2 (fun _ => (0 : Nat)))).1 = true
      ↔ (SPSCLockFreeQueue.contents
          (SPSCLockFreeQueue.run [QOp.enq 5]
            (SPSCLockFreeQueue.init 2 (fun _ => (0 : Nat)))).1).length
        = SPSCLockFreeQueue.capacity 2) ∧
    SPSCLockFreeQueue.capacity 2 = 2 - 1 :=
  claim_C8_ring_invariants Nat 2 1 (by norm_num) (fun _ => 0) [QOp.enq 5]

/-- Claim C9: `buffer_was_swapped()` is false on a fresh queue, true on the
first call after any `swap_buffers()`, and false on every further call with no
intervening swap (one-shot, reset on read). -/
theorem claim_C9_swapped_flag (α : Type) (max_size : Nat) :
    (DoubleBufferSPSC.buffer_was_swapped
        (DoubleBufferSPSC.init α max_size)).1 = false ∧
    (∀ q : DoubleBufferSPSC α,
      (DoubleBufferSPSC.buffer_was_swapped
          (DoubleBufferSPSC.swap_buffers q)).1 = true) ∧
    (∀ q : DoubleBufferSPSC α,
      (DoubleBufferSPSC.buffer_was_swapped
          (DoubleBufferSPSC.buffer_was_swapped q).2).1 = false) := by
  refine ⟨rfl, fun q => rfl, fun q => rfl⟩

/-- Claim C10: whenever `enqueue` or `dequeue` returns false, the state is
completely unchanged, and a failing dequeue also returns the out-argument
unchanged (for `SPSCLockFreeQueue` this covers head, tail and buffer; for
`LockedQueue` the element sequence; for `DoubleBufferSPSC` both buffers, the
role pointers, the read cursor and the swapped flag). -/
theorem claim_C10_failure_no_change (α : Type) :
    (∀ (Size : Nat) (q : SPSCLockFreeQueue α Size) (v x : α),
      ((SPSCLockFreeQueue.enqueue q v).1 = false →
        (SPSCLockFreeQueue.enqueue q v).2 = q) ∧
      ((SPSCLockFreeQueue.dequeue q x).1 = false →
        (SPSCLockFreeQueue.dequeue q x).2.2 = q ∧
        (SPSCLockFreeQueue.dequeue q x).2.1 = x)) ∧
    (∀ (q : LockedQueue α) (v x : α),
      ((LockedQueue.enqueue q v).1 = false → (LockedQueue.enqueue q v).2 = q) ∧
      ((LockedQueue.dequeue q x).1 = false →
        (LockedQueue.dequeue q x).2.2 = q ∧
        (LockedQueue.dequeue q x).2.1 = x)) ∧
    (∀ (q : DoubleBufferSPSC α) (v x : α),
      ((DoubleBufferSPSC.enqueue q v).1 = false →
        (DoubleBufferSPSC.enqueue q v).2 = q) ∧
      ((DoubleBufferSPSC.dequeue q x).1 = false →
        (DoubleBufferSPSC.dequeue q x).2.2 = q ∧
        (DoubleBufferSPSC.dequeue q x).2.1 = x)) := by
  refine ⟨?_, ?_, ?_⟩
  · intro Size q v x
    constructor
    · intro h
      by_cases hc : (q.tail + 1) &&& SPSCLockFreeQueue.MASK Size = q.head
      · simp [SPSCLockFreeQueue.enqueue, hc]
      · simp [SPSCLockFreeQueue.enqueue, hc] at h
    · intro h
      by_cases hc : q.head = q.tail
      · simp [SPSCLockFreeQueue.dequeue, hc]
      · simp [SPSCLockFreeQueue.dequeue, hc] at h
  · intro q v x
    constructor
    · intro h
      by_cases hc : q.queue.length ≥ q.max_size
      · simp [LockedQueue.enqueue, hc]
      · simp [LockedQueue.enqueue, hc] at h
    · intro h
      match hq : q.queue with
      | [] => simp [LockedQueue.dequeue, hq]
      | y :: ys => simp [LockedQueue.dequeue, hq] at h
  · intro q v x
    constructor
    · intro h
      by_cases hc : (DoubleBufferSPSC.bufAt q q.write_buffer).length ≥ q.max_size
      · simp [DoubleBufferSPSC.enqueue, hc]
      · simp [DoubleBufferSPSC.enqueue, hc] at h
    · intro h
      by_cases hc : (DoubleBufferSPSC.bufAt q q.read_buffer).length ≤ q.read_index
      · simp [DoubleBufferSPSC.dequeue, hc]
      · simp [DoubleBufferSPSC.dequeue, hc] at h

/-- Witness for C10: a full size-1 ring rejects an enqueue unchanged; empty
locked and double-buffer queues reject a dequeue unchanged. -/
theorem claim_C10_failure_no_change_witness :
    ((SPSCLockFreeQueue.enqueue
        (SPSCLockFreeQueue.init 1 (fun _ => (0 : Nat))) 5).2
      = SPSCLockFreeQueue.init 1 (fun _ => (0 : Nat))) ∧
    ((LockedQueue.dequeue (LockedQueue.init Nat 4) 7).2.2
      = LockedQueue.init Nat 4) ∧
    ((DoubleBufferSPSC.dequeue (DoubleBufferSPSC.init Nat 4) 7).2.2
      = DoubleBufferSPSC.init Nat 4) :=
  ⟨((claim_C10_failure_no_change Nat).1 1
      (SPSCLockFreeQueue.init 1 (fun _ => 0)) 5 7).1 rfl,
   (((claim_C10_failure_no_change Nat).2.1 (LockedQueue.init Nat 4) 5 7).2 rfl).1,
   (((claim_C10_failure_no_change Nat).2.2 (DoubleBufferSPSC.init Nat 4) 5 7).2
      rfl).1⟩
